import Mathlib

/-!
Shallow embedding of the masked-loss subsystem of the DeepSatModels repository
(file src/metrics/loss_functions.py), together with theorems settling the
specification claims about it.

Tensors are modelled as a shape (list of dimension sizes) plus a flat
row-major data list.  Floating-point arithmetic is idealised as exact
arithmetic in a linear ordered field; the transcendental operations the
external tensor engine supplies (exp, log, and real powers) are passed in
as an explicit operation record, so that every definition stays executable
and can be instantiated either with the real functions or with computable
test operations on the rationals.  Fallible framework operations (reshape,
gather, boolean indexing, dictionary access) return an explicit error value.
-/

namespace DeepSat

/-- Errors raised synchronously by the Python source or by the framework
operations it calls.  The constructors follow the failure taxonomy of the
specification where one applies, and the Python exception class otherwise. -/
inductive Err where
  /-- the explicit ValueError each masked functor raises for a ground truth
  of unexpected arity -/
  | invalidGroundTruthShape
  /-- the explicit ValueError raised for an unrecognised reduction value -/
  | invalidReductionMode
  /-- framework error for incompatible tensor shapes (reshape or boolean
  indexing with a mask whose element count does not match) -/
  | shapeMismatch
  /-- framework or Python IndexError (gather index out of range, subscript
  of an empty sequence, class-weight index past the weight vector) -/
  | indexError
  /-- framework error for a gather index tensor whose number of dimensions
  differs from the input tensor -/
  | dimMismatch
  /-- Python KeyError from a direct dictionary subscript of a missing key -/
  | keyError
  /-- Python TypeError (for instance building a tensor from None) -/
  | typeError
  /-- Python ZeroDivisionError -/
  | zeroDivision
  deriving DecidableEq

/-- A tensor: dimension sizes plus flat row-major data.  A well-formed
tensor has data length equal to the product of its dimensions; definitions
do not enforce this, theorems assume it where it matters. -/
structure Tensor (γ : Type) where
  shape : List ℕ
  data : List γ

/-- The polymorphic ground-truth argument of the masked loss functors: either
a bare tensor or a tuple of tensors.  The Python sources only ever read the
first element (target) and the second (validity mask), so a tuple of three or
more elements is represented by its first two elements plus the count of the
additional, never-inspected elements: `tupleMore t m k` stands for a tuple of
arity `3 + k`. -/
inductive GroundTruth (γ : Type) where
  | bare (t : Tensor γ)
  | tuple0
  | tuple1 (t : Tensor γ)
  | tuple2 (t : Tensor γ) (m : Tensor Bool)
  | tupleMore (t : Tensor γ) (m : Tensor Bool) (k : ℕ)

/-- The elementwise analytic operations supplied by the external tensor
engine: exponential, logarithm, and the real power used by the focal and
Tversky exponents. -/
structure AnalyticOps (α : Type) where
  exp : α → α
  log : α → α
  pow : α → α → α

/-- Result of a loss functor: either an aggregated scalar or the unreduced
per-element loss tensor. -/
inductive LossValue (α : Type) where
  | scalar (x : α)
  | elems (xs : List α)
  deriving DecidableEq

variable {α : Type} [LinearOrderedField α] {γ δ : Type}

/-- Mean of a flat tensor: sum divided by the number of elements. -/
def listMean (xs : List α) : α := xs.sum / (xs.length : α)

/-- The framework mean: the mean of a zero-dimensional tensor is itself. -/
def lvMean : LossValue α → α
  | .scalar x => x
  | .elems xs => listMean xs

/-- The framework sum: the sum of a zero-dimensional tensor is itself. -/
def lvSum : LossValue α → α
  | .scalar x => x
  | .elems xs => xs.sum

/-- The reduction branch shared verbatim by FocalLoss, MaskedFocalLoss,
MaskedDiceLoss and FocalTverskyLoss: None returns the unreduced value,
"mean" and "sum" aggregate, anything else raises. -/
def applyReduction (reduction : Option String) (lv : LossValue α) :
    Except Err (LossValue α) :=
  match reduction with
  | none => .ok lv
  | some s =>
    if s = "mean" then .ok (.scalar (lvMean lv))
    else if s = "sum" then .ok (.scalar (lvSum lv))
    else .error .invalidReductionMode

/-- Boolean mask as a float tensor, the effect of `.to(torch.float32)`. -/
def boolToNum (b : Bool) : α := if b then 1 else 0

/-- Boolean-mask indexing `t[mask]`: keep the elements at mask-true
positions, in order.  Callers check the length agreement the framework
enforces. -/
def maskSelect (mask : List Bool) (xs : List γ) : List γ :=
  (mask.zip xs).filterMap (fun p => if p.1 then some p.2 else none)

/-- Split a flat list into consecutive rows of length `c` (row-major
`reshape(-1, c)` on exactly divisible data). -/
def chunkRows (c : ℕ) (xs : List γ) : List (List γ) :=
  (List.range (xs.length / c)).map (fun i => (xs.drop (i * c)).take c)

/-- The `reshape(-1, t.shape[-1])` step: the class count is the last
dimension (IndexError on a zero-dimensional shape) and the element count
must be exactly divisible by it. -/
def reshapeRowsC (t : Tensor γ) : Except Err (ℕ × List (List γ)) :=
  match t.shape.getLast? with
  | none => .error .indexError
  | some c =>
    if c = 0 then .error .shapeMismatch
    else if t.data.length % c = 0 then .ok (c, chunkRows c t.data)
    else .error .shapeMismatch

/-- Numerically the stable `log_softmax` of one row equals
`x - log (sum of exponentials)` in exact arithmetic. -/
def logSoftmaxRow (ops : AnalyticOps α) (row : List α) : List α :=
  row.map (fun x => x - ops.log ((row.map ops.exp).sum))

/-- Softmax of one row in exact arithmetic. -/
def softmaxRow (ops : AnalyticOps α) (row : List α) : List α :=
  row.map (fun x => ops.exp x / (row.map ops.exp).sum)

/-- Column extraction `rows[:, j]`; IndexError when a row is too short. -/
def colAt (rows : List (List γ)) (j : ℕ) : Except Err (List γ) :=
  rows.mapM (fun r =>
    match r.get? j with
    | some v => Except.ok v
    | none => Except.error Err.indexError)

/-- Gather along the class axis with a column index tensor: framework
semantics allow the index to have at most as many rows as the input
(trailing input rows are ignored), and every index must be within the row. -/
def gatherCols (rows : List (List γ)) (idx : List ℕ) : Except Err (List γ) :=
  if idx.length ≤ rows.length then
    (idx.zip rows).mapM (fun p =>
      match p.2.get? p.1 with
      | some v => Except.ok v
      | none => Except.error Err.indexError)
  else .error .shapeMismatch

@[simp] lemma ok_bind {ε β σ : Type} (a : β) (f : β → Except ε σ) :
    (Except.ok a >>= f) = f a := rfl

@[simp] lemma error_bind {ε β σ : Type} (e : ε) (f : β → Except ε σ) :
    ((Except.error e : Except ε β) >>= f) = .error e := rfl

lemma maskSelect_replicate_true (xs : List γ) :
    maskSelect (List.replicate xs.length true) xs = xs := by
  induction xs with
  | nil => rfl
  | cons a l ih =>
    simp [maskSelect, List.replicate] at ih ⊢
    simpa [maskSelect] using ih

@[simp] lemma chunkRows_length (c : ℕ) (xs : List γ) :
    (chunkRows c xs).length = xs.length / c := by
  simp [chunkRows]

/-! ## Loss functors (classes of src/metrics/loss_functions.py)

Each `X.core` is the body of the source `X.forward` up to and excluding the
final reduction branch; `X.forward` applies the reduction to the core result
exactly as the source does. -/

/-- Row layout used by `FocalLoss.forward` and `FocalTverskyLoss.forward`:
inputs of more than two dimensions are taken as (N, C, spatial...), permuted
to (N, spatial..., C) and flattened to rows of length C (the `view`,
`transpose`, `view` sequence of the source); two-dimensional inputs are used
as is; fewer dimensions make the later softmax over dim 1 fail. -/
def focalRows [Zero γ] (t : Tensor γ) : Except Err (List (List γ)) :=
  match t.shape with
  | [_, c] => .ok (chunkRows c t.data)
  | n :: c :: rest =>
    .ok ((List.range (n * rest.prod)).map (fun k =>
      (List.range c).map (fun j =>
        t.data.getD ((k / rest.prod) * (c * rest.prod) + j * rest.prod +
          k % rest.prod) 0)))
  | _ => .error .dimMismatch

/-- The scoring block shared verbatim (copy-pasted in the source) by
`FocalLoss.forward` and `MaskedFocalLoss.forward`: log-softmax over the
class axis, gather of the target class, alpha reweighting, focal loss.
`idxdims` is the dimension count of the gather index tensor, which the
gather operation requires to equal the two dimensions of the log-probability
tensor. -/
def focalTail (ops : AnalyticOps α) (gamma : α) (alpha : Option (List α))
    (rows : List (List α)) (tgt : List ℕ) (idxdims : ℕ) :
    Except Err (LossValue α) :=
  let logpt0 := rows.map (logSoftmaxRow ops)
  (if idxdims = 2 then Except.ok () else Except.error Err.dimMismatch) >>=
    fun _ =>
  gatherCols logpt0 tgt >>= fun lp =>
  let pt := lp.map ops.exp
  (match alpha with
   | none => Except.ok lp
   | some al =>
     (tgt.mapM (fun i =>
        match al.get? i with
        | some a => Except.ok a
        | none => Except.error Err.indexError)).map
       (fun ats => List.zipWith (fun l a => l * a) lp ats)) >>= fun lp2 =>
  .ok (.elems (List.zipWith (fun p l => -1 * ops.pow (1 - p) gamma * l)
    pt lp2))

/-- Body of `FocalLoss.forward` up to the reduction branch.  The target is
flattened to a column of indices (already integer class indices, so the
int64 cast is the identity); its gather index has two dimensions. -/
def FocalLoss.core (ops : AnalyticOps α) (gamma : α) (alpha : Option (List α))
    (input : Tensor α) (target : Tensor ℕ) : Except Err (LossValue α) :=
  focalRows input >>= fun rows =>
  focalTail ops gamma alpha rows target.data 2

/-- `FocalLoss.forward`. -/
def FocalLoss.forward (ops : AnalyticOps α) (gamma : α)
    (alpha : Option (List α)) (reduction : Option String)
    (input : Tensor α) (target : Tensor ℕ) : Except Err (LossValue α) :=
  FocalLoss.core ops gamma alpha input target >>= applyReduction reduction

/-- Body of `MaskedFocalLoss.forward` up to the reduction branch.  The
ground truth is normalised (bare tensor or 1-tuple: no mask; 2-tuple:
target and mask; anything else raises), the target is reshaped to a
two-dimensional column, the logits to rows of the last dimension; with a
mask, boolean indexing selects the valid targets (giving a one-dimensional
tensor) and the valid logit rows.  The gather index is the target after one
unsqueeze, so it has 2 dimensions when a mask was applied and 3 otherwise
(the latter fails inside gather, faithfully to the source). -/
def MaskedFocalLoss.core (ops : AnalyticOps α) (gamma : α)
    (alpha : Option (List α)) (logits : Tensor α)
    (ground_truth : GroundTruth ℕ) : Except Err (LossValue α) :=
  (match ground_truth with
   | .bare t => Except.ok (t, (none : Option (Tensor Bool)))
   | .tuple1 t => Except.ok (t, none)
   | .tuple2 t m => Except.ok (t, some m)
   | _ => Except.error Err.invalidGroundTruthShape) >>= fun tm =>
  reshapeRowsC logits >>= fun cr =>
  (match tm.2 with
   | some m =>
     if m.data.length = tm.1.data.length then
       if m.data.length = cr.2.length then
         Except.ok (maskSelect m.data tm.1.data, maskSelect m.data cr.2, 1)
       else Except.error Err.shapeMismatch
     else Except.error Err.shapeMismatch
   | none => Except.ok (tm.1.data, cr.2, 2)) >>= fun trd =>
  focalTail ops gamma alpha trd.2.1 trd.1 (trd.2.2 + 1)

/-- `MaskedFocalLoss.forward`. -/
def MaskedFocalLoss.forward (ops : AnalyticOps α) (gamma : α)
    (alpha : Option (List α)) (reduction : Option String) (logits : Tensor α)
    (ground_truth : GroundTruth ℕ) : Except Err (LossValue α) :=
  MaskedFocalLoss.core ops gamma alpha logits ground_truth >>=
    applyReduction reduction

/-- Body of `MaskedCrossEntropyLoss.forward` up to the final mean branch:
after the shared ground-truth normalisation, the logits are flattened to
rows of the last dimension; with a mask the valid rows are selected first
and then the valid targets; the loss is the negated gathered log-softmax. -/
def MaskedCrossEntropyLoss.core (ops : AnalyticOps α) (logits : Tensor α)
    (ground_truth : GroundTruth ℕ) : Except Err (List α) :=
  (match ground_truth with
   | .bare t => Except.ok (t, (none : Option (Tensor Bool)))
   | .tuple1 t => Except.ok (t, none)
   | .tuple2 t m => Except.ok (t, some m)
   | _ => Except.error Err.invalidGroundTruthShape) >>= fun tm =>
  reshapeRowsC logits >>= fun cr =>
  (match tm.2 with
   | some m =>
     if m.data.length = cr.2.length then
       if m.data.length = tm.1.data.length then
         Except.ok (maskSelect m.data cr.2, maskSelect m.data tm.1.data)
       else Except.error Err.shapeMismatch
     else Except.error Err.shapeMismatch
   | none => Except.ok (cr.2, tm.1.data)) >>= fun rt =>
  gatherCols (rt.1.map (logSoftmaxRow ops)) rt.2 >>= fun vals =>
  .ok (vals.map (fun v => -v))

/-- `MaskedCrossEntropyLoss.forward`; the reduction is the boolean `mean`
flag fixed at construction (the factory sets it to `reduction == "mean"`).
No reduction validation exists in this functor. -/
def MaskedCrossEntropyLoss.forward (ops : AnalyticOps α) (mean : Bool)
    (logits : Tensor α) (ground_truth : GroundTruth ℕ) :
    Except Err (LossValue α) :=
  MaskedCrossEntropyLoss.core ops logits ground_truth >>= fun losses =>
  if mean then .ok (.scalar (listMean losses)) else .ok (.elems losses)

/-- Body of `MaskedDiceLoss.forward` up to the reduction branch.  The
target is flattened to one dimension; when a mask is supplied the source
reshapes it to a two-dimensional column and uses it to boolean-index the
one-dimensional target, which the framework rejects (mask of 2 dimensions
against a tensor of 1), so the masked path always fails.  Without a mask:
optional label smoothing (or one-hot encoding) of the target, softmax of
the logits, and the binary Dice loss over class 1.  A zero union gives the
framework 0/0; exact field arithmetic makes `x / 0 = 0`, the closest total
rendering of that silent-fallback zone. -/
def MaskedDiceLoss.core (ops : AnalyticOps α) (label_smoothing : α)
    (logits : Tensor α) (ground_truth : GroundTruth ℕ) :
    Except Err (LossValue α) :=
  (match ground_truth with
   | .bare t => Except.ok (t, (none : Option (Tensor Bool)))
   | .tuple1 t => Except.ok (t, none)
   | .tuple2 t m => Except.ok (t, some m)
   | _ => Except.error Err.invalidGroundTruthShape) >>= fun tm =>
  reshapeRowsC logits >>= fun cr =>
  (match tm.2 with
   | some _ => Except.error Err.indexError
   | none => Except.ok ()) >>= fun _ =>
  (if 0 < label_smoothing then
     if cr.1 = 1 then Except.error Err.zeroDivision
     else if tm.1.data.all (fun ti => ti < cr.1) then
       Except.ok (tm.1.data.map (fun ti =>
         (List.range cr.1).map (fun j =>
           if j = ti then 1 - label_smoothing
           else label_smoothing / ((cr.1 : α) - 1))))
     else Except.error Err.indexError
   else
     if tm.1.data.all (fun ti => ti < cr.1) then
       Except.ok (tm.1.data.map (fun ti =>
         (List.range cr.1).map (fun j => if j = ti then (1 : α) else 0)))
     else Except.error Err.indexError) >>= fun target_onehot =>
  let predicted_prob := cr.2.map (softmaxRow ops)
  colAt predicted_prob 1 >>= fun predicted_prob_pos =>
  colAt target_onehot 1 >>= fun target_pos =>
  let inter := (List.zipWith (fun a b => a * b)
    predicted_prob_pos target_pos).sum
  let union := predicted_prob_pos.sum + target_pos.sum
  .ok (.scalar (1 - 2 * inter / union))

/-- `MaskedDiceLoss.forward`. -/
def MaskedDiceLoss.forward (ops : AnalyticOps α) (label_smoothing : α)
    (reduction : Option String) (logits : Tensor α)
    (ground_truth : GroundTruth ℕ) : Except Err (LossValue α) :=
  MaskedDiceLoss.core ops label_smoothing logits ground_truth >>=
    applyReduction reduction

/-- Body of `MaskedContrastiveLoss.forward` up to the reduction line: the
ground-truth normalisation of this functor has no arity guard (its final
branch reads elements 0 and 1 of any tuple of two or more elements; an
empty tuple fails on the element-0 subscript); the mask is cast to float
and multiplied elementwise into the raw-score loss.  The unused `self.h`
field of the source is omitted. -/
def MaskedContrastiveLoss.core (pos_weight : α) (logits : Tensor α)
    (ground_truth : GroundTruth α) : Except Err (List α) :=
  (match ground_truth with
   | .bare t => Except.ok (t, (none : Option (List α)))
   | .tuple1 t => Except.ok (t, none)
   | .tuple0 => Except.error Err.indexError
   | .tuple2 t m => Except.ok (t, some (m.data.map boolToNum))
   | .tupleMore t m _ => Except.ok (t, some (m.data.map boolToNum))) >>=
    fun tm =>
  (if tm.1.data.length = logits.data.length then
     Except.ok (List.zipWith (fun tg lg => -pos_weight * tg * lg +
       (1 - tg) * lg) tm.1.data logits.data)
   else Except.error Err.shapeMismatch) >>= fun loss =>
  match tm.2 with
  | none => .ok loss
  | some mk =>
    if mk.length = loss.length then
      .ok (List.zipWith (fun a b => a * b) mk loss)
    else .error .shapeMismatch

/-- `MaskedContrastiveLoss.forward`: "mean" divides by the count of all
elements; any other reduction value silently returns the per-element loss. -/
def MaskedContrastiveLoss.forward (pos_weight : α)
    (reduction : Option String) (logits : Tensor α)
    (ground_truth : GroundTruth α) : Except Err (LossValue α) :=
  MaskedContrastiveLoss.core pos_weight logits ground_truth >>= fun loss =>
  if reduction = some ("mean") then .ok (.scalar (listMean loss))
  else .ok (.elems loss)

/-- Elementwise sigmoid cross entropy with logits.  Modelled from the spec:
the source delegates to the external framework operation
`BCEWithLogitsLoss` (standard sigmoid cross-entropy with an optional
positive-class weight), whose code is not part of this repository. -/
def bceWithLogits (ops : AnalyticOps α) (pw : α) (x t : α) : α :=
  let sig := 1 / (1 + ops.exp (-x))
  (-(pw * t * ops.log sig + (1 - t) * ops.log (1 - sig)))

/-- The reduction handling of the external framework losses: the strings
"none", "mean" and "sum" are accepted, anything else (including the Python
None the hand-rolled functors accept) is rejected. -/
def torchReduce (reduction : Option String) (losses : List α) :
    Except Err (LossValue α) :=
  match reduction with
  | none => .error .invalidReductionMode
  | some s =>
    if s = "none" then .ok (.elems losses)
    else if s = "mean" then .ok (.scalar (listMean losses))
    else if s = "sum" then .ok (.scalar (losses.sum))
    else .error .invalidReductionMode

/-- Body of `MaskedBinaryCrossEntropy.forward`: like the contrastive
functor it has no arity guard — any tuple of two or more elements is
treated as (target, mask), the mask boolean-indexing both the target and
the logits before scoring. -/
def MaskedBinaryCrossEntropy.core (ops : AnalyticOps α) (pos_weight : Option α)
    (logits : Tensor α) (ground_truth : GroundTruth α) : Except Err (List α) :=
  (match ground_truth with
   | .bare t => Except.ok (logits.data, t.data)
   | .tuple1 t => Except.ok (logits.data, t.data)
   | .tuple0 => Except.error Err.indexError
   | .tuple2 t m =>
     if m.data.length = t.data.length then
       if m.data.length = logits.data.length then
         Except.ok (maskSelect m.data logits.data, maskSelect m.data t.data)
       else Except.error Err.shapeMismatch
     else Except.error Err.shapeMismatch
   | .tupleMore t m _ =>
     if m.data.length = t.data.length then
       if m.data.length = logits.data.length then
         Except.ok (maskSelect m.data logits.data, maskSelect m.data t.data)
       else Except.error Err.shapeMismatch
     else Except.error Err.shapeMismatch) >>= fun lt =>
  if lt.1.length = lt.2.length then
    .ok (List.zipWith (bceWithLogits ops (pos_weight.getD 1)) lt.1 lt.2)
  else .error .shapeMismatch

/-- `MaskedBinaryCrossEntropy.forward`: the reduction string is handed to
the framework loss. -/
def MaskedBinaryCrossEntropy.forward (ops : AnalyticOps α)
    (reduction : Option String) (pos_weight : Option α) (logits : Tensor α)
    (ground_truth : GroundTruth α) : Except Err (LossValue α) :=
  MaskedBinaryCrossEntropy.core ops pos_weight logits ground_truth >>=
    torchReduce reduction

/-- Body of `FocalTverskyLoss.forward` up to the reduction branch: softmax
probabilities over the class axis (with the same above-two-dimensional row
layout as FocalLoss), flat 0/1 float targets, binary Tversky index from
class columns 1 and 0, focal exponent gamma. -/
def FocalTverskyLoss.core (ops : AnalyticOps α) (smooth alpha beta gamma : α)
    (inputs : Tensor α) (targets : Tensor α) : Except Err (LossValue α) :=
  focalRows inputs >>= fun rows =>
  let probs := rows.map (softmaxRow ops)
  let t := targets.data
  colAt probs 1 >>= fun col1 =>
  (if t.length = col1.length then Except.ok ()
   else Except.error Err.shapeMismatch) >>= fun _ =>
  colAt probs 0 >>= fun col0 =>
  let tp := (List.zipWith (fun a b => a * b) col1 t).sum
  let fp := (List.zipWith (fun a b => a * b) (t.map (fun x => 1 - x))
    col1).sum
  let fn := (List.zipWith (fun a b => a * b) t col0).sum
  let tversky := (tp + smooth) / (tp + alpha * fp + beta * fn + smooth)
  .ok (.scalar (ops.pow (1 - tversky) gamma))

/-- `FocalTverskyLoss.forward`. -/
def FocalTverskyLoss.forward (ops : AnalyticOps α)
    (smooth alpha beta gamma : α) (reduction : Option String)
    (inputs : Tensor α) (targets : Tensor α) : Except Err (LossValue α) :=
  FocalTverskyLoss.core ops smooth alpha beta gamma inputs targets >>=
    applyReduction reduction

/-- The loop of `CombinedLoss.forward`: starting from the Python integer 0,
add `weights[i] * loss_fns[i](inputs, targets)` for each sub-loss in order
(IndexError when the weight list is too short). -/
def combinedGo {ι τ : Type} (inputs : ι) (targets : τ) :
    List (ι → τ → Except Err α) → List α → ℕ → α → Except Err α
  | [], _, _, acc => .ok acc
  | f :: fs, ws, i, acc =>
    match ws.get? i with
    | none => .error .indexError
    | some w =>
      match f inputs targets with
      | .error e => .error e
      | .ok v => combinedGo inputs targets fs ws (i + 1) (acc + w * v)

/-- `CombinedLoss.forward`: the weighted sum of the sub-losses, every
sub-loss receiving the identical inputs and targets. -/
def CombinedLoss.forward {ι τ : Type} (loss_fns : List (ι → τ → Except Err α))
    (weights : List α) (inputs : ι) (targets : τ) : Except Err α :=
  combinedGo inputs targets loss_fns weights 0 0

/-- Exact-field rendering of `np.nan_to_num(x, nan=0.0)`: the exact
semantics has no NaN value, so the replacement is the identity. -/
def nanToNum0 (x : α) : α := x

/-- `per_class_loss`: for each class, select the positions whose label
equals the class, apply the criterion to the selected logit rows, labels
and mask entries, and record the count of valid (mask-true) selected
elements.  The logits are the per-position class-score rows aligned with
the flat labels and mask (the source indexes the 4-D tensors with the
label-equality mask repeated over the class axis and reshapes to rows). -/
def per_class_loss (criterion : List (List α) → List ℕ → List Bool → α)
    (logits : List (List α)) (labels : List ℕ) (unk_masks : List Bool)
    (n_classes : ℕ) : List α × List ℕ :=
  (((List.range n_classes).map (fun c =>
      let idx := labels.map (fun l => l == c)
      criterion (maskSelect idx logits) (maskSelect idx labels)
        (maskSelect idx unk_masks))).map nanToNum0,
   (List.range n_classes).map (fun c =>
      let idx := labels.map (fun l => l == c)
      (maskSelect idx unk_masks).count true))

/-! ## The loss factory (`get_loss`)

Configuration values are exact rationals.  A dictionary key that may be
absent is an outer `Option` (a direct subscript of a missing key raises
KeyError; `get_params_values` substitutes a default); a present key whose
value is the Python None is an inner `none`. -/

/-- The `alpha` configuration value of the focal losses: a number or a
per-class list. -/
inductive AlphaVal where
  | num (a : ℚ)
  | list (l : List ℚ)
  deriving DecidableEq

/-- The `SOLVER.loss_function` field: a single identifier or a (possibly
nested) sequence of loss-function specifications. -/
inductive LFun where
  | str (s : String)
  | seq (fs : List LFun)

/-- The `MODEL` section fields the factory reads. -/
structure ModelConfig where
  /-- read through the get-with-default accessor with default None -/
  num_classes : Option ℕ

/-- The `SOLVER` section fields the factory reads. -/
structure SolverConfig where
  loss_function : LFun
  /-- key presence, then the value which may itself be None -/
  pos_weight : Option (Option ℚ)
  /-- key presence, then None / a possibly empty index-to-weight mapping -/
  class_weights : Option (Option (List (ℕ × ℚ)))
  label_smoothing : Option ℚ
  gamma : Option ℚ
  /-- the single `alpha` key, read by the focal and the Tversky branches -/
  alpha : Option AlphaVal
  smooth : Option ℚ
  beta : Option ℚ
  loss_weights : Option (List ℚ)

/-- Modelled from the spec: the repository-external helper
`get_params_values(config, key, default)` of deepsat.utils.config_files_utils
(not under src/) is the single get-with-default accessor the spec
describes — the stored value when the key is present, the default
otherwise. -/
def get_params_values {β : Type} (stored : Option β) (default : β) : β :=
  stored.getD default

/-- A loss functor object as constructed by the factory: the constructor
parameters each Python object stores.  The focal alpha is stored after the
constructor normalisation (a number a becomes the pair [a, 1 - a]). -/
inductive LossObject where
  | maskedContrastive (pos_weight : Option ℚ) (reduction : Option String)
  | torchBCE (reduction : Option String)
  | maskedBCE (reduction : Option String) (pos_weight : Option ℚ)
  | torchCrossEntropy (weight : Option (List ℚ)) (reduction : Option String)
      (label_smoothing : ℚ)
  | maskedCrossEntropy (mean : Bool)
  | focal (gamma : ℚ) (alpha : Option (List ℚ)) (reduction : Option String)
  | maskedFocal (gamma : ℚ) (alpha : Option (List ℚ))
      (reduction : Option String)
  | maskedDice (reduction : Option String) (label_smoothing : ℚ)
  | focalTversky (smooth : ℚ) (alpha : AlphaVal) (beta : ℚ) (gamma : ℚ)
      (reduction : Option String)
  | combined (loss_fns : List LossObject) (weights : List ℚ)

/-- What a `get_loss` call evaluates to: a loss object, the Python None the
source returns when no branch of the identifier chain matches, or (for a
sequence-valued `loss_function`) a list of recursive results. -/
inductive GetLossResult where
  | obj (o : LossObject)
  | pyNone
  | list (rs : List GetLossResult)

/-- The alpha normalisation in the constructors of FocalLoss and
MaskedFocalLoss: a scalar becomes the two-class vector [alpha, 1 - alpha],
a list is used as given. -/
def focalAlphaVec : Option AlphaVal → Option (List ℚ)
  | none => none
  | some (.num a) => some [a, 1 - a]
  | some (.list l) => some l

/-- The class-weight override loop of the cross_entropy branch:
`weight[key] = value` for each mapping entry, IndexError past the end. -/
def setClassWeights : List ℚ → List (ℕ × ℚ) → Except Err (List ℚ)
  | w, [] => .ok w
  | w, (k, v) :: rest =>
    if k < w.length then setClassWeights (w.set k v) rest
    else .error .indexError

/-- The positive-class weight pair of the weight_cross_entropy and
combined_dice_ce branches: weights 1/pos_weight and 1 normalised to sum 1
(Python float division raises ZeroDivisionError on a zero divisor). -/
def posWeightPair (w : ℚ) : Except Err (List ℚ) :=
  if w = 0 then .error .zeroDivision
  else
    let w1 := 1 / w
    let tw := w1 + 1
    if tw = 0 then .error .zeroDivision
    else .ok [w1 / tw, 1 / tw]

mutual

/-- `get_loss` on one loss-function specification, the other configuration
fields fixed (the source deep-copies the configuration and overwrites only
`SOLVER.loss_function` before each recursive call).  A sequence recurses
elementwise; a string runs the identifier chain of the source in order, and
an unrecognised identifier falls off the end of the function, returning the
Python None. -/
def getLossAux (m : ModelConfig) (s : SolverConfig)
    (reduction : Option String) : LFun → Except Err GetLossResult
  | .seq fs => (getLossSeq m s reduction fs).map .list
  | .str name =>
    if name = "contrastive_loss" ∨ name = "masked_contrastive_loss" then
      .ok (.obj (.maskedContrastive (get_params_values s.pos_weight (some 1))
        reduction))
    else if name = "binary_cross_entropy" then
      .ok (.obj (.torchBCE (if reduction = none then some ("none")
        else reduction)))
    else if name = "masked_binary_cross_entropy" then
      match s.pos_weight with
      | none => .error .keyError
      | some pw => .ok (.obj (.maskedBCE reduction pw))
    else if name = "cross_entropy" then
      match m.num_classes with
      | none => .error .typeError
      | some n =>
        match s.class_weights with
        | none => .error .keyError
        | some cw =>
          (match cw with
           | none => Except.ok (List.replicate n (1 : ℚ))
           | some l =>
             if l = [] then Except.ok (List.replicate n (1 : ℚ))
             else setClassWeights (List.replicate n (1 : ℚ)) l) >>= fun w =>
          .ok (.obj (.torchCrossEntropy (some w) reduction 0))
    else if name = "weight_cross_entropy" then
      let ls := get_params_values s.label_smoothing 0
      match s.pos_weight with
      | none => .error .keyError
      | some pwv =>
        match pwv with
        | none => .ok (.obj (.torchCrossEntropy none reduction ls))
        | some w =>
          (posWeightPair w).map (fun pair =>
            .obj (.torchCrossEntropy (some pair) reduction ls))
    else if name = "masked_cross_entropy" then
      .ok (.obj (.maskedCrossEntropy (reduction == some ("mean"))))
    else if name = "focal_loss" ∨ name = "masked_focal_loss" then
      let gamma := get_params_values s.gamma 1
      let alpha := get_params_values (s.alpha.map some) none
      if name = "focal_loss" then
        .ok (.obj (.focal gamma (focalAlphaVec alpha) reduction))
      else if name = "masked_focal_loss" then
        .ok (.obj (.maskedFocal gamma (focalAlphaVec alpha) reduction))
      else .ok .pyNone
    else if name = "masked_dice_loss" then
      .ok (.obj (.maskedDice reduction (get_params_values s.label_smoothing 0)))
    else if name = "tversky_loss" ∨ name = "focal_tversky_loss" then
      let smooth := get_params_values s.smooth 1
      let al := get_params_values s.alpha (.num (1 / 2))
      let beta := get_params_values s.beta (1 / 2)
      let gamma := if name = "tversky_loss" then 1
        else get_params_values s.gamma 1
      .ok (.obj (.focalTversky smooth al beta gamma reduction))
    else if name = "combined_dice_ce" then
      let ls := get_params_values s.label_smoothing 0
      match s.pos_weight with
      | none => .error .keyError
      | some pwv =>
        (match pwv with
         | none => Except.ok (LossObject.torchCrossEntropy none reduction ls)
         | some w => (posWeightPair w).map (fun pair =>
             LossObject.torchCrossEntropy (some pair) reduction ls)) >>=
          fun ce =>
        .ok (.obj (.combined [.maskedDice reduction 0, ce]
          (get_params_values s.loss_weights [1 / 2, 1 / 2])))
    else .ok .pyNone

/-- The recursion of `get_loss` over a sequence of loss-function
specifications, preserving order. -/
def getLossSeq (m : ModelConfig) (s : SolverConfig)
    (reduction : Option String) : List LFun → Except Err (List GetLossResult)
  | [] => .ok []
  | f :: fs =>
    getLossAux m s reduction f >>= fun r =>
    getLossSeq m s reduction fs >>= fun rs =>
    .ok (r :: rs)

end

/-- `get_loss(config, device, reduction)` (the device argument only places
tensors and does not affect the result). -/
def get_loss (m : ModelConfig) (s : SolverConfig)
    (reduction : Option String) : Except Err GetLossResult :=
  getLossAux m s reduction s.loss_function

/-! ## Instantiations of the analytic operations -/

/-- Degenerate analytic operations on the rationals: they let the generic
theorems be evaluated on concrete executable inputs (the structural claims
proved below hold for every operation record, these included). -/
def ratOps : AnalyticOps ℚ := ⟨id, id, fun x _ => x⟩

/-- The exact real semantics of the engine operations. -/
noncomputable def realOps : AnalyticOps ℝ :=
  ⟨Real.exp, Real.log, fun x y => x ^ y⟩

/-! ## Claims about CombinedLoss (C6, C10) -/

lemma combinedGo_spec {ι τ : Type} (inputs : ι) (targets : τ) :
    ∀ (fns : List (ι → τ → Except Err α)) (rs : List α) (ws : List α)
      (i : ℕ) (acc : α),
      rs.length = fns.length → i + fns.length ≤ ws.length →
      (∀ j (hj : j < fns.length) (hj2 : j < rs.length),
        (fns.get ⟨j, hj⟩) inputs targets = .ok (rs.get ⟨j, hj2⟩)) →
      combinedGo inputs targets fns ws i acc
        = .ok (acc + (((ws.drop i).zip rs).map (fun p => p.1 * p.2)).sum)
  | [], rs, ws, i, acc, hlen, _, _ => by
    have : rs = [] := List.length_eq_zero.mp hlen
    subst this
    simp [combinedGo]
  | f :: fns, rs, ws, i, acc, hlen, hw, hok => by
    match rs, hlen with
    | r :: rs, hlen =>
      have hi : i < ws.length := by
        have := hw
        simp only [List.length_cons] at this
        omega
      have hfst : f inputs targets = .ok r := hok 0 (by simp) (by simp)
      have hrec := combinedGo_spec inputs targets fns rs ws (i + 1)
        (acc + ws.get ⟨i, hi⟩ * r)
        (by simp only [List.length_cons] at hlen; omega)
        (by simp only [List.length_cons] at hw; omega)
        (fun j hj hj2 => hok (j + 1) (by simpa using hj) (by simpa using hj2))
      have hdrop : ws.drop i = ws.get ⟨i, hi⟩ :: ws.drop (i + 1) := by
        rw [List.drop_eq_getElem_cons hi]
        rfl
      have hget : ws.get? i = some (ws.get ⟨i, hi⟩) := List.get?_eq_get hi
      simp only [combinedGo, hget, hfst, hrec, hdrop, List.zip_cons_cons,
        List.map_cons, List.sum_cons]
      rw [add_assoc]

/-- C6: CombinedLoss.forward is the weighted sum of the sub-loss values,
every sub-loss receiving the identical inputs and targets; in particular a
single sub-loss of weight w yields w times that sub-loss value. -/
theorem c6_combined_weighted_sum {ι τ : Type}
    (loss_fns : List (ι → τ → Except Err α)) (weights : List α)
    (inputs : ι) (targets : τ) (rs : List α)
    (hlen : rs.length = loss_fns.length)
    (hw : loss_fns.length ≤ weights.length)
    (hok : ∀ j (hj : j < loss_fns.length) (hj2 : j < rs.length),
      (loss_fns.get ⟨j, hj⟩) inputs targets = .ok (rs.get ⟨j, hj2⟩)) :
    CombinedLoss.forward loss_fns weights inputs targets
      = .ok (((weights.zip rs).map (fun p => p.1 * p.2)).sum) := by
  have := combinedGo_spec inputs targets loss_fns rs weights 0 0 hlen
    (by simpa using hw) hok
  simpa [CombinedLoss.forward] using this

/-- Witness for C6 at a concrete single sub-loss: weight 3, sub-loss value
2, combined value 3 * 2. -/
theorem c6_combined_weighted_sum_witness :
    CombinedLoss.forward [fun (_ : Unit) (_ : Unit) => Except.ok (2 : ℚ)]
      [3] () () = .ok ((([(3 : ℚ)].zip [2]).map (fun p => p.1 * p.2)).sum) :=
  c6_combined_weighted_sum [fun _ _ => Except.ok 2] [3] () () [2] rfl
    (by decide)
    (fun j hj hj2 => by
      match j, hj with
      | 0, _ => rfl)

lemma combinedGo_take {ι τ : Type} (inputs : ι) (targets : τ) :
    ∀ (fns : List (ι → τ → Except Err α)) (ws : List α) (i : ℕ) (acc : α),
      combinedGo inputs targets fns ws i acc
        = combinedGo inputs targets fns (ws.take (i + fns.length)) i acc
  | [], ws, i, acc => by simp [combinedGo]
  | f :: fns, ws, i, acc => by
    have hget : (ws.take (i + (f :: fns).length)).get? i = ws.get? i := by
      simp only [List.get?_eq_getElem?, List.getElem?_take, List.length_cons]
      rw [if_pos (by omega)]
    cases hw : ws.get? i with
    | none => simp only [combinedGo, hget, hw]
    | some w =>
      cases hf : f inputs targets with
      | error e => simp only [combinedGo, hget, hw, hf]
      | ok v =>
        simp only [combinedGo, hget, hw, hf]
        have h1 := combinedGo_take inputs targets fns ws (i + 1) (acc + w * v)
        have h2 := combinedGo_take inputs targets fns
          (ws.take (i + (f :: fns).length)) (i + 1) (acc + w * v)
        rw [h1, h2, List.take_take]
        have h3 : min (i + 1 + fns.length) (i + (f :: fns).length)
            = i + 1 + fns.length := by
          simp only [List.length_cons]
          omega
        rw [h3]

/-- C10: CombinedLoss with an empty sub-loss list returns the numeric 0
for every input, target and weight list (none of them is read), and in
general forward reads only the first len(loss_fns) weights: surplus
weights are silently ignored. -/
theorem c10_combined_empty_and_surplus_weights {ι τ : Type} :
    (∀ (weights : List α) (inputs : ι) (targets : τ),
      CombinedLoss.forward [] weights inputs targets = .ok 0)
    ∧ (∀ (loss_fns : List (ι → τ → Except Err α)) (weights : List α)
        (inputs : ι) (targets : τ),
      CombinedLoss.forward loss_fns weights inputs targets
        = CombinedLoss.forward loss_fns (weights.take loss_fns.length)
            inputs targets) := by
  constructor
  · intro ws inputs targets
    rfl
  · intro fns ws inputs targets
    have := combinedGo_take inputs targets fns ws 0 0
    simpa [CombinedLoss.forward] using this

/-- Witness for C10: a combined loss with no sub-losses returns 0, and one
with a single sub-loss ignores a surplus second weight. -/
theorem c10_combined_empty_and_surplus_weights_witness :
    CombinedLoss.forward ([] : List (Unit → Unit → Except Err ℚ)) [5, 7] () ()
      = .ok 0
    ∧ CombinedLoss.forward [fun (_ : Unit) (_ : Unit) => Except.ok (2 : ℚ)]
        [3, 9] () ()
      = CombinedLoss.forward [fun (_ : Unit) (_ : Unit) => Except.ok (2 : ℚ)]
        ([3, 9].take 1) () () :=
  ⟨c10_combined_empty_and_surplus_weights.1 [5, 7] () (),
   c10_combined_empty_and_surplus_weights.2
     [fun _ _ => Except.ok 2] [3, 9] () ()⟩

/-! ## Claim C2: ground-truth normalisation across the masked functors -/

/-- Counterexample to C2 as stated: a ground truth of arity 3 does not make
every masked functor fail — MaskedContrastiveLoss silently accepts it,
returning the same mean loss it returns for the 2-tuple of the first two
elements. -/
theorem c2_arity_counterexample :
    MaskedContrastiveLoss.forward 1 (some ("mean")) (⟨[2], [1, 2]⟩ : Tensor ℚ)
      (.tupleMore ⟨[2], [(1 : ℚ), 0]⟩ ⟨[2], [true, true]⟩ 0)
      = .ok (.scalar (1 / 2)) := by
  simp [MaskedContrastiveLoss.forward, MaskedContrastiveLoss.core, maskSelect,
    boolToNum, listMean]
  norm_num

/-- C2 amended: the bare-tensor and the 1-tuple ground truth normalise
identically (no mask) in all five masked functors, but a ground truth of
arity three or more fails with the invalid-ground-truth-shape error only in
MaskedCrossEntropyLoss, MaskedFocalLoss and MaskedDiceLoss;
MaskedContrastiveLoss and MaskedBinaryCrossEntropy silently accept it,
treating the first element as the target and the second as the mask. -/
theorem c2_ground_truth_normalization (ops : AnalyticOps α)
    (gamma label_smoothing pos_weight : α) (alphaL : Option (List α))
    (mean : Bool) (pwOpt : Option α) (reduction : Option String)
    (logits : Tensor α) (t : Tensor ℕ) (ta : Tensor α) (m : Tensor Bool)
    (k : ℕ) :
    (MaskedCrossEntropyLoss.forward ops mean logits (.tupleMore t m k)
      = .error .invalidGroundTruthShape)
    ∧ (MaskedFocalLoss.forward ops gamma alphaL reduction logits
        (.tupleMore t m k) = .error .invalidGroundTruthShape)
    ∧ (MaskedDiceLoss.forward ops label_smoothing reduction logits
        (.tupleMore t m k) = .error .invalidGroundTruthShape)
    ∧ (MaskedContrastiveLoss.forward pos_weight reduction logits
        (.tupleMore ta m k)
      = MaskedContrastiveLoss.forward pos_weight reduction logits
        (.tuple2 ta m))
    ∧ (MaskedBinaryCrossEntropy.forward ops reduction pwOpt logits
        (.tupleMore ta m k)
      = MaskedBinaryCrossEntropy.forward ops reduction pwOpt logits
        (.tuple2 ta m))
    ∧ (MaskedCrossEntropyLoss.forward ops mean logits (.tuple1 t)
      = MaskedCrossEntropyLoss.forward ops mean logits (.bare t))
    ∧ (MaskedFocalLoss.forward ops gamma alphaL reduction logits (.tuple1 t)
      = MaskedFocalLoss.forward ops gamma alphaL reduction logits (.bare t))
    ∧ (MaskedDiceLoss.forward ops label_smoothing reduction logits
        (.tuple1 t)
      = MaskedDiceLoss.forward ops label_smoothing reduction logits (.bare t))
    ∧ (MaskedContrastiveLoss.forward pos_weight reduction logits (.tuple1 ta)
      = MaskedContrastiveLoss.forward pos_weight reduction logits (.bare ta))
    ∧ (MaskedBinaryCrossEntropy.forward ops reduction pwOpt logits
        (.tuple1 ta)
      = MaskedBinaryCrossEntropy.forward ops reduction pwOpt logits
        (.bare ta)) :=
  ⟨rfl, rfl, rfl, rfl, rfl, rfl, rfl, rfl, rfl, rfl⟩

/-- Concrete instance of the amended C2 at rational inputs. -/
theorem c2_ground_truth_normalization_witness :
    MaskedCrossEntropyLoss.forward ratOps true (⟨[2], [1, 2]⟩ : Tensor ℚ)
      (.tupleMore ⟨[2], [0, 1]⟩ ⟨[2], [true, true]⟩ 0)
      = .error .invalidGroundTruthShape :=
  (c2_ground_truth_normalization ratOps 0 0 1 none true none none
    ⟨[2], [1, 2]⟩ ⟨[2], [0, 1]⟩ ⟨[2], [1, 2]⟩ ⟨[2], [true, true]⟩ 0).1

/-! ## Claim C3: unknown loss identifiers -/

/-- The identifiers the factory chain recognises. -/
def supportedLossIdentifiers : List String :=
  ["contrastive_loss", "masked_contrastive_loss", "binary_cross_entropy",
   "masked_binary_cross_entropy", "cross_entropy", "weight_cross_entropy",
   "masked_cross_entropy", "focal_loss", "masked_focal_loss",
   "masked_dice_loss", "tversky_loss", "focal_tversky_loss",
   "combined_dice_ce"]

/-- A configuration whose loss_function identifier no factory branch
recognises. -/
def unknownLossSolver : SolverConfig :=
  ⟨.str ("no_such_loss_function"), none, none, none, none, none, none, none,
   none⟩

/-- Counterexample to C3 as stated: the factory, given an unrecognised
identifier, does not raise any error — it falls off the end of the
identifier chain and returns the Python None. -/
theorem c3_unknown_identifier_counterexample :
    get_loss ⟨none⟩ unknownLossSolver (some ("mean")) = .ok .pyNone := rfl

/-- C3 amended: for every configuration whose loss_function is a single
identifier outside the supported list, get_loss raises nothing and returns
the Python None (a non-loss value) instead of a functor. -/
theorem c3_unknown_identifier_returns_none (m : ModelConfig)
    (s : SolverConfig) (reduction : Option String) (name : String)
    (hs : s.loss_function = .str name)
    (h : name ∉ supportedLossIdentifiers) :
    get_loss m s reduction = .ok .pyNone := by
  simp only [supportedLossIdentifiers, List.mem_cons, not_or,
    List.mem_singleton] at h
  obtain ⟨h1, h2, h3, h4, h5, h6, h7, h8, h9, h10, h11, h12, h13, -⟩ := h
  simp [get_loss, hs, getLossAux, h1, h2, h3, h4, h5, h6, h7, h8, h9, h10,
    h11, h12, h13]

/-- The amended C3 applied at a second concrete unknown identifier. -/
theorem c3_unknown_identifier_returns_none_witness :
    get_loss ⟨some 2⟩
      ⟨.str ("definitely_not_a_loss"), none, none, none, none, none, none,
       none, none⟩ none = .ok .pyNone :=
  c3_unknown_identifier_returns_none ⟨some 2⟩
    ⟨.str ("definitely_not_a_loss"), none, none, none, none, none, none,
     none, none⟩ none "definitely_not_a_loss" rfl (by decide)

/-! ## Claim C8: factory on a sequence of identifiers -/

/-- Value of a successful computation, with a default for the error case. -/
def exceptGetD {ε β : Type} (e : Except ε β) (d : β) : β :=
  match e with
  | .ok v => v
  | .error _ => d

lemma getLossSeq_spec (m : ModelConfig) (s : SolverConfig)
    (reduction : Option String) :
    ∀ (fs : List LFun),
      (∀ f ∈ fs, (getLossAux m s reduction f).isOk = true) →
      getLossSeq m s reduction fs
        = .ok (fs.map (fun f => exceptGetD (getLossAux m s reduction f)
            .pyNone))
  | [], _ => rfl
  | f :: fs, h => by
    have hf := h f (by simp)
    cases hv : getLossAux m s reduction f with
    | error e =>
      rw [hv] at hf
      exact absurd hf (by simp [Except.isOk, Except.toBool])
    | ok v =>
      have hrec := getLossSeq_spec m s reduction fs
        (fun g hg => h g (by simp [hg]))
      simp [getLossSeq, hv, hrec, exceptGetD]

/-- C8: when the configured loss_function is a sequence of identifier
strings each of which the factory can construct, get_loss returns a list
with exactly one entry per identifier, in the same order, each entry being
the very result of the corresponding single-identifier construction. -/
theorem c8_factory_list_construction (m : ModelConfig) (s : SolverConfig)
    (reduction : Option String) (ids : List String)
    (hs : s.loss_function = .seq (ids.map .str))
    (h : ∀ nm ∈ ids, (getLossAux m s reduction (.str nm)).isOk = true) :
    get_loss m s reduction
      = .ok (.list (ids.map (fun nm =>
          exceptGetD (getLossAux m s reduction (.str nm)) .pyNone)))
    ∧ (ids.map (fun nm =>
        exceptGetD (getLossAux m s reduction (.str nm)) .pyNone)).length
      = ids.length := by
  constructor
  · have hseq := getLossSeq_spec m s reduction (ids.map .str)
      (by
        intro f hf
        obtain ⟨nm, hnm, rfl⟩ := List.mem_map.mp hf
        exact h nm hnm)
    have hrw : getLossAux m s reduction (.seq (ids.map .str))
        = (getLossSeq m s reduction (ids.map .str)).map .list := rfl
    unfold get_loss
    rw [hs, hrw, hseq]
    simp only [Except.map, List.map_map]
    rfl
  · simp

/-- The amended C8... the claim scenario: the pair ["focal_loss",
"masked_dice_loss"] yields exactly the FocalLoss object followed by the
MaskedDiceLoss object. -/
theorem c8_factory_list_construction_witness :
    get_loss ⟨none⟩
      ⟨.seq [.str ("focal_loss"), .str ("masked_dice_loss")], none, none,
       none, none, none, none, none, none⟩ (some ("mean"))
      = .ok (.list [.obj (.focal 1 none (some ("mean"))),
          .obj (.maskedDice (some ("mean")) 0)]) := by
  have := (c8_factory_list_construction ⟨none⟩
    ⟨.seq [.str ("focal_loss"), .str ("masked_dice_loss")], none, none,
     none, none, none, none, none, none⟩ (some ("mean"))
    ["focal_loss", "masked_dice_loss"] rfl (by decide)).1
  exact this

/-! ## Claim C7: the contrastive mean divides by the total element count -/

/-- C7: with reduction "mean", MaskedContrastiveLoss returns the sum of
the mask-weighted per-element scores divided by the total number of
elements — not by the number of mask-true elements; without a mask the
same total-count division applies to the unweighted scores. -/
theorem c7_contrastive_mean_denominator (pos_weight : α)
    (logits : Tensor α) (t : Tensor α) (m : Tensor Bool)
    (hlen : t.data.length = logits.data.length)
    (hm : m.data.length = logits.data.length) :
    (MaskedContrastiveLoss.forward pos_weight (some ("mean")) logits
        (.tuple2 t m)
      = .ok (.scalar ((List.zipWith (fun mk l => mk * l)
          (m.data.map boolToNum)
          (List.zipWith (fun tg lg => -pos_weight * tg * lg + (1 - tg) * lg)
            t.data logits.data)).sum / (logits.data.length : α))))
    ∧ (MaskedContrastiveLoss.forward pos_weight (some ("mean")) logits
        (.bare t)
      = .ok (.scalar ((List.zipWith
          (fun tg lg => -pos_weight * tg * lg + (1 - tg) * lg)
          t.data logits.data).sum / (logits.data.length : α)))) := by
  constructor
  · simp [MaskedContrastiveLoss.forward, MaskedContrastiveLoss.core, hlen,
      hm, listMean, List.length_zipWith]
  · simp [MaskedContrastiveLoss.forward, MaskedContrastiveLoss.core, hlen,
      listMean, List.length_zipWith]

/-- C7 at concrete inputs: mask [true, false], two elements, denominator 2
(the total count) rather than 1 (the valid count). -/
theorem c7_contrastive_mean_denominator_witness :
    MaskedContrastiveLoss.forward 1 (some ("mean")) (⟨[2], [1, 2]⟩ : Tensor ℚ)
      (.tuple2 ⟨[2], [(1 : ℚ), 0]⟩ ⟨[2], [true, false]⟩)
      = .ok (.scalar ((List.zipWith (fun mk l => mk * l)
          ([true, false].map boolToNum)
          (List.zipWith (fun tg lg => -(1 : ℚ) * tg * lg + (1 - tg) * lg)
            [(1 : ℚ), 0] [1, 2])).sum / ((2 : ℕ) : ℚ))) :=
  (c7_contrastive_mean_denominator 1 ⟨[2], [1, 2]⟩ ⟨[2], [(1 : ℚ), 0]⟩
    ⟨[2], [true, false]⟩ rfl rfl).1

/-! ## Claim C9: per-class valid counts partition the mask total -/

lemma list_range_map_sum (n : ℕ) (f : ℕ → ℕ) :
    ((List.range n).map f).sum = ∑ c ∈ Finset.range n, f c := by
  induction n with
  | zero => simp
  | succ k ih => simp [List.range_succ, Finset.sum_range_succ, ih]

lemma maskSelect_cons_count (c l : ℕ) (ls : List ℕ) (b : Bool)
    (bs : List Bool) :
    (maskSelect ((l == c) :: ls.map (fun x => x == c)) (b :: bs)).count true
      = ((if l = c then (if b then 1 else 0) else 0) : ℕ)
        + (maskSelect (ls.map (fun x => x == c)) bs).count true := by
  by_cases hc : l = c
  · by_cases hb : b = true
    · simp [maskSelect, hc, hb, List.count_cons]
      omega
    · simp [maskSelect, hc, hb, List.count_cons]
  · simp [maskSelect, hc]

lemma perClassCountSum (n : ℕ) :
    ∀ (labels : List ℕ) (masks : List Bool),
      labels.length = masks.length →
      (∀ l ∈ labels, l < n) →
      ((List.range n).map (fun c =>
        (maskSelect (labels.map (fun l => l == c)) masks).count true)).sum
        = masks.count true
  | [], [], _, _ => by simp [maskSelect]
  | [], _ :: _, h, _ => by simp at h
  | _ :: _, [], h, _ => by simp at h
  | l :: ls, b :: bs, h, hlt => by
    have hlen : ls.length = bs.length := by simpa using h
    have hl : l < n := hlt l (by simp)
    have hrec := perClassCountSum n ls bs hlen
      (fun x hx => hlt x (by simp [hx]))
    rw [list_range_map_sum] at hrec ⊢
    simp only [List.map_cons, maskSelect_cons_count]
    rw [Finset.sum_add_distrib, hrec, Finset.sum_ite_eq,
      if_pos (Finset.mem_range.mpr hl), List.count_cons]
    by_cases hb : b = true
    · simp [hb]
      omega
    · simp [hb]

omit [LinearOrderedField α] in
/-- C9: for labels inside [0, n), the per-class valid-element counts of
per_class_loss add up over all classes to the total count of mask-true
elements — every valid element is counted for exactly one class. -/
theorem c9_per_class_counts_total
    (criterion : List (List α) → List ℕ → List Bool → α)
    (logits : List (List α)) (labels : List ℕ) (unk_masks : List Bool)
    (n_classes : ℕ)
    (hlen : labels.length = unk_masks.length)
    (hlt : ∀ l ∈ labels, l < n_classes) :
    ((per_class_loss criterion logits labels unk_masks n_classes).2).sum
      = unk_masks.count true := by
  simpa [per_class_loss] using
    perClassCountSum n_classes labels unk_masks hlen hlt

/-- C9 at concrete inputs: three positions, two classes, two mask-true
elements in total. -/
theorem c9_per_class_counts_total_witness :
    ((per_class_loss (fun _ _ _ => (0 : ℚ)) [[1, 0], [0, 1], [1, 0]]
        [0, 1, 0] [true, false, true] 2).2).sum
      = [true, false, true].count true :=
  c9_per_class_counts_total (fun _ _ _ => (0 : ℚ)) [[1, 0], [0, 1], [1, 0]]
    [0, 1, 0] [true, false, true] 2 rfl (by decide)

/-! ## Claim C5: mean of the unreduced loss equals the mean reduction -/

lemma bind_applyReduction_none_mean (e : Except Err (LossValue α))
    (v : LossValue α) (h : e >>= applyReduction none = .ok v) :
    e >>= applyReduction (some ("mean")) = .ok (.scalar (lvMean v)) := by
  cases e with
  | error err => simp at h
  | ok lv =>
    simp [applyReduction] at h
    subst h
    simp [applyReduction]

lemma bind_torchReduce_none_mean (e : Except Err (List α)) (v : LossValue α)
    (h : e >>= torchReduce (some ("none")) = .ok v) :
    e >>= torchReduce (some ("mean")) = .ok (.scalar (lvMean v)) := by
  cases e with
  | error err => simp at h
  | ok losses =>
    simp [torchReduce] at h
    subst h
    simp [torchReduce, lvMean]

/-- C5: for every loss functor of the source, invoking it in its
unreduced variant (the Python None reduction for the hand-rolled functors,
the "none" string for the framework-backed binary cross entropy, the false
mean flag for the masked cross entropy) and taking the mean of the result
yields exactly the value of the same functor invoked with the "mean"
reduction, whenever the unreduced invocation succeeds. -/
theorem c5_none_mean_consistency (ops : AnalyticOps α) :
    (∀ (pos_weight : α) (logits : Tensor α) (gt : GroundTruth α)
        (v : LossValue α),
      MaskedContrastiveLoss.forward pos_weight none logits gt = .ok v →
      MaskedContrastiveLoss.forward pos_weight (some ("mean")) logits gt
        = .ok (.scalar (lvMean v)))
    ∧ (∀ (pw : Option α) (logits : Tensor α) (gt : GroundTruth α)
        (v : LossValue α),
      MaskedBinaryCrossEntropy.forward ops (some ("none")) pw logits gt
        = .ok v →
      MaskedBinaryCrossEntropy.forward ops (some ("mean")) pw logits gt
        = .ok (.scalar (lvMean v)))
    ∧ (∀ (logits : Tensor α) (gt : GroundTruth ℕ) (v : LossValue α),
      MaskedCrossEntropyLoss.forward ops false logits gt = .ok v →
      MaskedCrossEntropyLoss.forward ops true logits gt
        = .ok (.scalar (lvMean v)))
    ∧ (∀ (gamma : α) (alphaL : Option (List α)) (logits : Tensor α)
        (gt : GroundTruth ℕ) (v : LossValue α),
      MaskedFocalLoss.forward ops gamma alphaL none logits gt = .ok v →
      MaskedFocalLoss.forward ops gamma alphaL (some ("mean")) logits gt
        = .ok (.scalar (lvMean v)))
    ∧ (∀ (label_smoothing : α) (logits : Tensor α) (gt : GroundTruth ℕ)
        (v : LossValue α),
      MaskedDiceLoss.forward ops label_smoothing none logits gt = .ok v →
      MaskedDiceLoss.forward ops label_smoothing (some ("mean")) logits gt
        = .ok (.scalar (lvMean v)))
    ∧ (∀ (gamma : α) (alphaL : Option (List α)) (input : Tensor α)
        (target : Tensor ℕ) (v : LossValue α),
      FocalLoss.forward ops gamma alphaL none input target = .ok v →
      FocalLoss.forward ops gamma alphaL (some ("mean")) input target
        = .ok (.scalar (lvMean v)))
    ∧ (∀ (smooth al beta gamma : α) (inputs : Tensor α) (targets : Tensor α)
        (v : LossValue α),
      FocalTverskyLoss.forward ops smooth al beta gamma none inputs targets
        = .ok v →
      FocalTverskyLoss.forward ops smooth al beta gamma (some ("mean"))
        inputs targets = .ok (.scalar (lvMean v))) := by
  refine ⟨?_, ?_, ?_, ?_, ?_, ?_, ?_⟩
  · intro pos_weight logits gt v h
    unfold MaskedContrastiveLoss.forward at h ⊢
    cases hc : MaskedContrastiveLoss.core pos_weight logits gt with
    | error err => rw [hc] at h; simp at h
    | ok losses =>
      rw [hc] at h
      simp at h
      subst h
      simp [lvMean]
  · intro pw logits gt v h
    exact bind_torchReduce_none_mean _ v h
  · intro logits gt v h
    unfold MaskedCrossEntropyLoss.forward at h ⊢
    cases hc : MaskedCrossEntropyLoss.core ops logits gt with
    | error err => rw [hc] at h; simp at h
    | ok losses =>
      rw [hc] at h
      simp at h
      subst h
      simp [lvMean]
  · intro gamma alphaL logits gt v h
    exact bind_applyReduction_none_mean _ v h
  · intro label_smoothing logits gt v h
    exact bind_applyReduction_none_mean _ v h
  · intro gamma alphaL input target v h
    exact bind_applyReduction_none_mean _ v h
  · intro smooth al beta gamma inputs targets v h
    exact bind_applyReduction_none_mean _ v h

/-- C5 at concrete rational inputs for the contrastive functor: the
unreduced loss is [-1, 2], the mean invocation returns its mean. -/
theorem c5_none_mean_consistency_witness :
    MaskedContrastiveLoss.forward (1 : ℚ) (some ("mean")) ⟨[2], [1, 2]⟩
      (.bare ⟨[2], [(1 : ℚ), 0]⟩)
      = .ok (.scalar (lvMean (.elems [-1, 2]))) :=
  (c5_none_mean_consistency ratOps).1 1 ⟨[2], [1, 2]⟩ (.bare ⟨[2], [1, 0]⟩)
    (.elems [-1, 2])
    (by simp [MaskedContrastiveLoss.forward, MaskedContrastiveLoss.core])

/-! ## Claim C4: validation of the reduction mode -/

/-- Counterexample to C4 as stated: MaskedContrastiveLoss invoked with the
unsupported reduction string "banana" does not fail — it silently returns
the unreduced per-element loss. -/
theorem c4_reduction_counterexample :
    MaskedContrastiveLoss.forward 1 (some ("banana")) (⟨[2], [1, 2]⟩ : Tensor ℚ)
      (.tuple2 ⟨[2], [(1 : ℚ), 0]⟩ ⟨[2], [true, true]⟩)
      = .ok (.elems [-1, 2]) := by
  simp [MaskedContrastiveLoss.forward, MaskedContrastiveLoss.core,
    maskSelect, boolToNum]

lemma bind_applyReduction_none_bad (e : Except Err (LossValue α))
    (v : LossValue α) (r : Option String) (h0 : r ≠ none)
    (h1 : r ≠ some ("mean")) (h2 : r ≠ some ("sum"))
    (h : e >>= applyReduction none = .ok v) :
    e >>= applyReduction r = .error .invalidReductionMode := by
  cases e with
  | error err => simp at h
  | ok lv =>
    obtain ⟨s, rfl⟩ : ∃ s, r = some s := by
      cases r with
      | none => exact absurd rfl h0
      | some s => exact ⟨s, rfl⟩
    have hs1 : s ≠ "mean" := fun c => h1 (by rw [c])
    have hs2 : s ≠ "sum" := fun c => h2 (by rw [c])
    simp [applyReduction, hs1, hs2]

lemma bind_torchReduce_bad (e : Except Err (List α)) (v : LossValue α)
    (r : Option String) (h1 : r ≠ some ("mean")) (h2 : r ≠ some ("sum"))
    (h3 : r ≠ some ("none"))
    (h : e >>= torchReduce (some ("none")) = .ok v) :
    e >>= torchReduce r = .error .invalidReductionMode := by
  cases e with
  | error err => simp at h
  | ok losses =>
    cases r with
    | none => simp [torchReduce]
    | some s =>
      have hs1 : s ≠ "mean" := fun c => h1 (by rw [c])
      have hs2 : s ≠ "sum" := fun c => h2 (by rw [c])
      have hs3 : s ≠ "none" := fun c => h3 (by rw [c])
      simp [torchReduce, hs1, hs2, hs3]

/-- C4 amended: a reduction value outside the supported set (the Python
None, "mean", "sum" for the hand-rolled functors; "none", "mean", "sum"
for the framework binary cross entropy) makes FocalLoss, MaskedFocalLoss,
MaskedDiceLoss, FocalTverskyLoss and MaskedBinaryCrossEntropy fail with
the invalid-reduction-mode error whenever the pre-reduction computation
succeeds — but the validation is not uniform: MaskedContrastiveLoss
silently treats every reduction other than "mean" as the unreduced
variant, and the factory builds MaskedCrossEntropyLoss by collapsing the
reduction to a boolean mean flag with no validation at all. -/
theorem c4_reduction_validation (ops : AnalyticOps α) (r : Option String)
    (h0 : r ≠ none) (h1 : r ≠ some ("mean")) (h2 : r ≠ some ("sum"))
    (h3 : r ≠ some ("none")) :
    (∀ (gamma : α) (alphaL : Option (List α)) (input : Tensor α)
        (target : Tensor ℕ) (v : LossValue α),
      FocalLoss.forward ops gamma alphaL none input target = .ok v →
      FocalLoss.forward ops gamma alphaL r input target
        = .error .invalidReductionMode)
    ∧ (∀ (gamma : α) (alphaL : Option (List α)) (logits : Tensor α)
        (gt : GroundTruth ℕ) (v : LossValue α),
      MaskedFocalLoss.forward ops gamma alphaL none logits gt = .ok v →
      MaskedFocalLoss.forward ops gamma alphaL r logits gt
        = .error .invalidReductionMode)
    ∧ (∀ (label_smoothing : α) (logits : Tensor α) (gt : GroundTruth ℕ)
        (v : LossValue α),
      MaskedDiceLoss.forward ops label_smoothing none logits gt = .ok v →
      MaskedDiceLoss.forward ops label_smoothing r logits gt
        = .error .invalidReductionMode)
    ∧ (∀ (smooth al beta gamma : α) (inputs targets : Tensor α)
        (v : LossValue α),
      FocalTverskyLoss.forward ops smooth al beta gamma none inputs targets
        = .ok v →
      FocalTverskyLoss.forward ops smooth al beta gamma r inputs targets
        = .error .invalidReductionMode)
    ∧ (∀ (pw : Option α) (logits : Tensor α) (gt : GroundTruth α)
        (v : LossValue α),
      MaskedBinaryCrossEntropy.forward ops (some ("none")) pw logits gt
        = .ok v →
      MaskedBinaryCrossEntropy.forward ops r pw logits gt
        = .error .invalidReductionMode)
    ∧ (∀ (pos_weight : α) (logits : Tensor α) (gt : GroundTruth α),
      MaskedContrastiveLoss.forward pos_weight r logits gt
        = MaskedContrastiveLoss.forward pos_weight none logits gt)
    ∧ (∀ (m : ModelConfig) (s : SolverConfig),
      getLossAux m s r (.str ("masked_cross_entropy"))
        = .ok (.obj (.maskedCrossEntropy (r == some ("mean"))))) := by
  refine ⟨?_, ?_, ?_, ?_, ?_, ?_, ?_⟩
  · intro gamma alphaL input target v h
    exact bind_applyReduction_none_bad _ v r h0 h1 h2 h
  · intro gamma alphaL logits gt v h
    exact bind_applyReduction_none_bad _ v r h0 h1 h2 h
  · intro label_smoothing logits gt v h
    exact bind_applyReduction_none_bad _ v r h0 h1 h2 h
  · intro smooth al beta gamma inputs targets v h
    exact bind_applyReduction_none_bad _ v r h0 h1 h2 h
  · intro pw logits gt v h
    exact bind_torchReduce_bad _ v r h1 h2 h3 h
  · intro pos_weight logits gt
    unfold MaskedContrastiveLoss.forward
    cases hc : MaskedContrastiveLoss.core pos_weight logits gt with
    | error err => rfl
    | ok losses => simp [h1]
  · intro m s
    rfl

/-- The amended C4 at the reduction string "banana": FocalLoss fails with
the invalid-reduction-mode error exactly where its unreduced invocation
succeeds. -/
theorem c4_reduction_validation_witness :
    FocalLoss.forward ratOps 0 none (some ("banana"))
      (⟨[1, 2], [0, 0]⟩ : Tensor ℚ) ⟨[1], [0]⟩
      = .error .invalidReductionMode :=
  (c4_reduction_validation ratOps (some ("banana")) (by decide) (by decide)
    (by decide) (by decide)).1 0 none ⟨[1, 2], [0, 0]⟩ ⟨[1], [0]⟩
    (.elems [0])
    (by
      simp [FocalLoss.forward, FocalLoss.core, focalRows, focalTail,
        logSoftmaxRow, gatherCols, applyReduction, ratOps, chunkRows,
        List.range_succ, List.mapM, List.mapM.loop])

/-! ## Claim C1: MaskedFocalLoss with an all-true mask versus FocalLoss -/

/-- Counterexample to C1 as stated: for the rank-3 logits tensor of shape
(1, 2, 3) with all-zero entries, integer target (0, 2) and an all-true
mask, the two variants disagree — FocalLoss lays the class axis on
dimension 1 (two classes, so the target class 2 is out of range and gather
fails), while MaskedFocalLoss takes the last axis (three classes) and
returns a value. -/
theorem c1_masked_focal_vs_focal_counterexample :
    MaskedFocalLoss.forward realOps 0 none (some ("mean"))
      ⟨[1, 2, 3], List.replicate 6 (0 : ℝ)⟩
      (.tuple2 ⟨[1, 2], [0, 2]⟩ ⟨[1, 2], [true, true]⟩)
      ≠ FocalLoss.forward realOps 0 none (some ("mean"))
        ⟨[1, 2, 3], List.replicate 6 (0 : ℝ)⟩ ⟨[1, 2], [0, 2]⟩ := by
  intro heq
  have h1 : (MaskedFocalLoss.forward realOps 0 none (some ("mean"))
      ⟨[1, 2, 3], List.replicate 6 (0 : ℝ)⟩
      (.tuple2 ⟨[1, 2], [0, 2]⟩ ⟨[1, 2], [true, true]⟩)).isOk = true := rfl
  have h2 : FocalLoss.forward realOps 0 none (some ("mean"))
      ⟨[1, 2, 3], List.replicate 6 (0 : ℝ)⟩ ⟨[1, 2], [0, 2]⟩
      = .error .indexError := rfl
  rw [heq, h2] at h1
  simp [Except.isOk, Except.toBool] at h1

/-- C1 amended: the masked-equals-unmasked refinement holds for the one
functor pair that exists in both variants in the source (MaskedFocalLoss
versus FocalLoss) on rank-2 logits of shape (N, C) with an N-element
target and an all-true mask, for identical gamma, alpha and reduction; on
higher-rank logits the two variants lay out the class axis differently and
can disagree. -/
theorem c1_masked_focal_matches_focal_rank2 (ops : AnalyticOps α)
    (gamma : α) (alphaL : Option (List α)) (reduction : Option String)
    (N C : ℕ) (hC : 0 < C) (logits : Tensor α) (target : Tensor ℕ)
    (mask : Tensor Bool)
    (hshape : logits.shape = [N, C])
    (hdata : logits.data.length = N * C)
    (htarget : target.data.length = N)
    (hmask : mask.data = List.replicate N true) :
    MaskedFocalLoss.forward ops gamma alphaL reduction logits
      (.tuple2 target mask)
      = FocalLoss.forward ops gamma alphaL reduction logits target := by
  obtain ⟨sh, ldata⟩ := logits
  simp only at hshape hdata
  subst hshape
  have hC0 : ¬(C = 0) := hC.ne'
  have hrowsLen : (chunkRows C ldata).length = N := by
    simp [hdata, Nat.mul_div_cancel _ hC]
  have hsel1 : maskSelect (List.replicate N true) target.data
      = target.data := by
    rw [← htarget]
    exact maskSelect_replicate_true target.data
  have hsel2 : maskSelect (List.replicate N true) (chunkRows C ldata)
      = chunkRows C ldata := by
    rw [← hrowsLen]
    exact maskSelect_replicate_true (chunkRows C ldata)
  have hcore : MaskedFocalLoss.core ops gamma alphaL ⟨[N, C], ldata⟩
      (.tuple2 target mask)
      = FocalLoss.core ops gamma alphaL ⟨[N, C], ldata⟩ target := by
    unfold MaskedFocalLoss.core FocalLoss.core focalRows
    simp [reshapeRowsC, List.getLast?_cons_cons, List.getLast?_singleton,
      hC0, hdata, Nat.mul_mod_left, hmask, htarget, hrowsLen, hsel1, hsel2]
  unfold MaskedFocalLoss.forward FocalLoss.forward
  rw [hcore]

/-- The amended C1 at concrete rational inputs of shape (2, 2). -/
theorem c1_masked_focal_matches_focal_rank2_witness :
    MaskedFocalLoss.forward ratOps 1 none (some ("mean"))
      (⟨[2, 2], [1, 2, 3, 4]⟩ : Tensor ℚ)
      (.tuple2 ⟨[2], [0, 1]⟩ ⟨[2], [true, true]⟩)
      = FocalLoss.forward ratOps 1 none (some ("mean"))
        (⟨[2, 2], [1, 2, 3, 4]⟩ : Tensor ℚ) ⟨[2], [0, 1]⟩ :=
  c1_masked_focal_matches_focal_rank2 ratOps 1 none (some ("mean")) 2 2
    (by decide) ⟨[2, 2], [1, 2, 3, 4]⟩ ⟨[2], [0, 1]⟩ ⟨[2], [true, true]⟩
    rfl rfl rfl rfl

end DeepSat
